import Mathlib

/-!
Verification of the NEO3 script-builder encoder (sc/scriptBuilder.go of
neo-ngd/neo3-gogogo) against its natural-language specification.

The builder state, the emit primitives and every encoder are translated from
the Go source. Helper routines that live outside the analysed sources
(byte-order helpers, the big-integer byte representation, the opcode table,
the interop hash) are modelled from the specification; each such definition
carries a doc comment saying so.

Machine bytes are represented as Nat values below 256, buffers as lists of
bytes, and Go errors as their message strings.
-/

namespace NeoSB

/-- Builder state (ScriptBuilder in scriptBuilder.go): the accumulated byte
buffer and the ordered list of recorded error messages. -/
structure SB where
  buff : List Nat
  errs : List String
deriving DecidableEq, Repr

/-- The state of a freshly created builder (NewScriptBuilder). -/
def SBempty : SB := ⟨[], []⟩

/-- Appending a delta (a buffer suffix plus an error suffix) to a state.
Every encode operation of the builder only appends, which this combinator
lets the theorems state. -/
def SB.app (s d : SB) : SB := ⟨s.buff ++ d.buff, s.errs ++ d.errs⟩

/-- addError from scriptBuilder.go: record one error message. -/
def addError (sb : SB) (msg : String) : SB := ⟨sb.buff, sb.errs ++ [msg]⟩

/-- Emit from scriptBuilder.go: append one opcode byte followed by the
immediate bytes. Buffer writes are infallible. -/
def emit (sb : SB) (op : Nat) (arg : List Nat) : SB :=
  ⟨sb.buff ++ op :: arg, sb.errs⟩

/-! ## Opcode constants

Modelled from the spec: the OpCode enumeration of the virtual machine is an
external contract (spec section 6) and its Go source is not among the
analysed files.  The numeric values are the NEO3 instruction-set values; the
claims only rely on the structural facts the spec states about them
(17 consecutive small-integer opcodes based at PUSHM1, width-tagged
push-integer opcodes, push-data opcodes per prefix width, even/odd
short/long jump pairing). -/

def PUSHINT8 : Nat := 0x00
def PUSHINT16 : Nat := 0x01
def PUSHINT32 : Nat := 0x02
def PUSHINT64 : Nat := 0x03
def PUSHINT128 : Nat := 0x04
def PUSHINT256 : Nat := 0x05
def PUSHNULL : Nat := 0x0B
def PUSHDATA1 : Nat := 0x0C
def PUSHDATA2 : Nat := 0x0D
def PUSHDATA4 : Nat := 0x0E
def PUSHM1 : Nat := 0x0F
def PUSH0 : Nat := 0x10
def PUSH1 : Nat := 0x11
def PUSH16 : Nat := 0x20
def JMP : Nat := 0x22
def JMPLE_L : Nat := 0x33
def CALL : Nat := 0x34
def CALL_L : Nat := 0x35
def SYSCALL : Nat := 0x41
def DUP : Nat := 0x4A
def PACK : Nat := 0xC0
def NEWARRAY0 : Nat := 0xC2
def NEWMAP : Nat := 0xC8
def SETITEM : Nat := 0xD0

/-! ## Byte-order helpers (external helper package, modelled from the spec) -/

/-- Modelled from the spec: helper.UInt16ToBytes is not among the analysed
sources; per spec sections 4.2 and 6 it is the 2-byte little-endian encoding
of a 16-bit value. -/
def UInt16ToBytes (u : Nat) : List Nat := [u % 256, u / 256 % 256]

/-- Modelled from the spec: helper.UInt32ToBytes is not among the analysed
sources; per spec sections 4.2 and 6 it is the 4-byte little-endian encoding
of a 32-bit value (a Go uint32, so wider inputs are reduced mod 2^32). -/
def UInt32ToBytes (u : Nat) : List Nat :=
  [u % 256, u / 256 % 256, u / 2 ^ 16 % 256, u / 2 ^ 24 % 256]

/-- Modelled from the spec: helper.IntToBytes is not among the analysed
sources; per spec section 4.3 it is the 4-byte little-endian signed
(two's-complement) encoding of an offset. -/
def IntToBytes (n : Int) : List Nat := UInt32ToBytes ((n % 2 ^ 32).toNat)

/-! ## Minimal two's-complement representation
(helper.BigIntToNeoBytes, modelled from the spec) -/

/-- Fuel-driven worker for the minimal two's-complement little-endian byte
representation: while the value does not fit one signed byte, output the low
byte and continue with the arithmetically shifted value. -/
def twosLEAux : Nat → Int → List Nat
  | 0, _ => []
  | fuel + 1, n =>
    if -128 ≤ n ∧ n ≤ 127 then [(n % 256).toNat]
    else (n % 256).toNat :: twosLEAux fuel (n / 256)

/-- Modelled from the spec: helper.BigIntToNeoBytes is not among the
analysed sources; per spec section 4.2 it is the minimal two's-complement
little-endian byte representation of a big integer. -/
def BigIntToNeoBytes (n : Int) : List Nat := twosLEAux (n.natAbs + 1) n

/-- Modelled from the spec: helper.PadRight is not among the analysed
sources; per spec section 4.2 it pads a little-endian two's-complement
payload on the high end to the requested width with the sign-extension byte
(0xFF when the sign bit of the top byte is set, 0x00 otherwise). -/
def PadRight (data : List Nat) (len : Nat) : List Nat :=
  data ++ List.replicate (len - data.length) (if 128 ≤ data.getLastD 0 then 255 else 0)

/-- Signed little-endian (two's-complement) value denoted by a non-empty
byte payload; the sign bit lives in the last byte. Used to state that the
emitted payload denotes the intended number. -/
def fromLE : List Nat → Int
  | [] => 0
  | [b] => (b : Int) - (if 128 ≤ b then 256 else 0)
  | b :: l => (b : Int) + 256 * fromLE l

/-- Unsigned little-endian value of a byte list (used for length fields). -/
def unsignedLE : List Nat → Nat
  | [] => 0
  | b :: l => b + 256 * unsignedLE l

/-! ## Integer pushes -/

/-- EmitPushBigInt from scriptBuilder.go. -/
def EmitPushBigInt (n : Int) (sb : SB) : SB :=
  if -1 ≤ n ∧ n ≤ 16 then
    emit sb ((PUSH0 + (n % 256).toNat) % 256) []
  else
    let data := BigIntToNeoBytes n
    if data.length = 1 then emit sb PUSHINT8 data
    else if data.length = 2 then emit sb PUSHINT16 data
    else if data.length ≤ 4 then emit sb PUSHINT32 (PadRight data 4)
    else if data.length ≤ 8 then emit sb PUSHINT64 (PadRight data 8)
    else if data.length ≤ 16 then emit sb PUSHINT128 (PadRight data 16)
    else if data.length ≤ 32 then emit sb PUSHINT256 (PadRight data 32)
    else addError sb "argument out of range: number"

/-- The smallest width class of the push-integer instruction family that can
hold a payload of the given length. -/
def minClass (l : Nat) : Nat :=
  if l ≤ 1 then 1 else if l ≤ 2 then 2 else if l ≤ 4 then 4
  else if l ≤ 8 then 8 else if l ≤ 16 then 16 else 32

/-- The push-integer opcode tagged with a given width class. -/
def pushIntOp (c : Nat) : Nat :=
  if c = 1 then PUSHINT8 else if c = 2 then PUSHINT16 else if c = 4 then PUSHINT32
  else if c = 8 then PUSHINT64 else if c = 16 then PUSHINT128 else PUSHINT256

/-! ## Byte-string pushes, control flow, system calls -/

/-- EmitPushBytes from scriptBuilder.go. A Go byte slice is modelled as
Option (List Nat), none being the nil slice; only nil is rejected. The
opcode, the length field at the chosen width and the data bytes are
appended in sequence. -/
def EmitPushBytes (data : Option (List Nat)) (sb : SB) : SB :=
  match data with
  | none => addError sb "data is empty"
  | some d =>
    if d.length < 256 then emit sb PUSHDATA1 (d.length :: d)
    else if d.length < 65536 then emit sb PUSHDATA2 (UInt16ToBytes d.length ++ d)
    else emit sb PUSHDATA4 (UInt32ToBytes d.length ++ d)

/-- EmitPushString from scriptBuilder.go: a Go string is its UTF-8 byte
sequence, and converting a string to a byte slice always yields a non-nil
slice. -/
def EmitPushString (s : List Nat) (sb : SB) : SB := EmitPushBytes (some s) sb

/-- EmitPushBool from scriptBuilder.go. -/
def EmitPushBool (b : Bool) (sb : SB) : SB :=
  if b then emit sb PUSH1 [] else emit sb PUSH0 []

/-- EmitCall from scriptBuilder.go. -/
def EmitCall (offset : Int) (sb : SB) : SB :=
  if offset < -128 ∨ 127 < offset then emit sb CALL_L (IntToBytes offset)
  else emit sb CALL [(offset % 256).toNat]

/-- EmitJump from scriptBuilder.go: an opcode outside the jump range records
an error (the call still proceeds); an even (short-form) opcode is promoted
to its odd long-form partner when the offset does not fit a signed byte; an
even opcode takes a single offset byte, an odd one a 4-byte little-endian
offset. -/
def EmitJump (op : Nat) (offset : Int) (sb : SB) : SB :=
  let sb1 := if op < JMP ∨ JMPLE_L < op
    then addError sb "argument out of range: invalid OpCode" else sb
  let op1 := if op % 2 = 0 ∧ (offset < -128 ∨ 127 < offset) then op + 1 else op
  if op1 % 2 = 0 then emit sb1 op1 [(offset % 256).toNat]
  else emit sb1 op1 (IntToBytes offset)

/-- EmitSysCall from scriptBuilder.go. -/
def EmitSysCall (api : Nat) (sb : SB) : SB := emit sb SYSCALL (UInt32ToBytes api)

/-! ## Integer dispatch (EmitPushInteger) -/

/-- The Go value carried in the interface argument of EmitPushInteger: one
constructor per integer type of the source's type switch, plus one for any
non-integer runtime type (the default case). -/
inductive GoNum where
  | i8 (n : Int)
  | u8 (n : Nat)
  | i16 (n : Int)
  | u16 (n : Nat)
  | i32 (n : Int)
  | u32 (n : Nat)
  | i64 (n : Int)
  | u64 (n : Nat)
  | iN (n : Int)
  | uN (n : Nat)
  | nonInteger
deriving DecidableEq, Repr

/-- The Go conversion int64(u) of an unsigned 64-bit value: two's-complement
reinterpretation of the bit pattern. -/
def goInt64OfUInt64 (v : Nat) : Int := ((v : Int) + 2 ^ 63) % 2 ^ 64 - 2 ^ 63

/-- EmitPushInteger from scriptBuilder.go: every supported integer type is
converted to int64 and pushed as a big integer. The conversions from the
signed types and from uint8/uint16/uint32 preserve the value; uint64 and
uint (64-bit) reinterpret the bit pattern as signed. -/
def EmitPushInteger (num : GoNum) (sb : SB) : SB :=
  match num with
  | .i8 n => EmitPushBigInt n sb
  | .u8 n => EmitPushBigInt (n : Int) sb
  | .i16 n => EmitPushBigInt n sb
  | .u16 n => EmitPushBigInt (n : Int) sb
  | .i32 n => EmitPushBigInt n sb
  | .u32 n => EmitPushBigInt (n : Int) sb
  | .i64 n => EmitPushBigInt n sb
  | .u64 n => EmitPushBigInt (goInt64OfUInt64 n) sb
  | .iN n => EmitPushBigInt n sb
  | .uN n => EmitPushBigInt (goInt64OfUInt64 n) sb
  | .nonInteger => addError sb "param is not of integer type"

/-! ## Contract parameters and runtime values -/

/-- The ContractParameterType tags switched on by EmitPushParameter: the ten
recognized tags, plus the remaining enumeration values (Any,
InteropInterface, Void), which fall into the default case. -/
inductive CPType where
  | SignatureT
  | ByteArrayT
  | BooleanT
  | IntegerT
  | Hash160T
  | Hash256T
  | PublicKeyT
  | StringT
  | ArrayT
  | MapT
  | AnyT
  | InteropInterfaceT
  | VoidT
deriving DecidableEq, Repr

/-- A Go runtime value as dispatched on by EmitPushObject and asserted on by
EmitPushParameter. A ContractParameter value is a tag together with an
optional value (vParam); vParams is a parameter slice (the Array tag's
expected value), vMap a map value (an ordered association list, none being
the typed nil map), vBytes a byte slice (none being the typed nil slice),
vNilT the go/types.Nil case and vOther any runtime type outside the type
switch. -/
inductive GoVal where
  | vCallFlags (n : Nat)
  | vBool (b : Bool)
  | vBytes (bs : Option (List Nat))
  | vStr (s : List Nat)
  | vBigInt (n : Int)
  | vBigIntPtr (n : Int)
  | vU160 (bs : List Nat)
  | vU256 (bs : List Nat)
  | vNum (num : GoNum)
  | vParam (ty : CPType) (val : Option GoVal)
  | vParams (ps : List (CPType × Option GoVal))
  | vMap (prs : Option (List (GoVal × GoVal)))
  | vNilT
  | vOther

/-- EmitPushSerializable from scriptBuilder.go. Modelled from the spec for
the serialization step: io.ToArray (not among the analysed sources) yields
the canonical byte serialization of a fixed-size identifier, which is its
byte sequence and cannot fail, so addError records nothing and the bytes
are pushed. -/
def EmitPushSerializable (bs : List Nat) (sb : SB) : SB :=
  EmitPushBytes (some bs) sb

mutual

/-- EmitPushObject from scriptBuilder.go: run-time type dispatch over the
pushed value. The result is none exactly when the call panics (through a
nested contract parameter whose value fails its type assertion). -/
def EmitPushObject : GoVal → SB → Option SB
  | .vCallFlags n, sb => some (EmitPushBigInt (n : Int) sb)
  | .vBool b, sb => some (EmitPushBool b sb)
  | .vBytes bs, sb => some (EmitPushBytes bs sb)
  | .vStr s, sb => some (EmitPushString s sb)
  | .vBigInt n, sb => some (EmitPushBigInt n sb)
  | .vBigIntPtr n, sb => some (EmitPushBigInt n sb)
  | .vU160 bs, sb => some (EmitPushSerializable bs sb)
  | .vU256 bs, sb => some (EmitPushSerializable bs sb)
  | .vNum num, sb => some (EmitPushInteger num sb)
  | .vParam ty val, sb => EmitPushParameter ty val sb
  | .vNilT, sb => some (emit sb PUSHNULL [])
  | .vParams _, sb => some (addError sb "invalid argument type")
  | .vMap _, sb => some (addError sb "invalid argument type")
  | .vOther, sb => some (addError sb "invalid argument type")

/-- EmitPushParameter from scriptBuilder.go, taking the type tag and the
optional value of the ContractParameter. A Go type assertion that fails on
the value is a panic, modelled as none; only an unrecognized tag reaches the
default case and records an error. -/
def EmitPushParameter : CPType → Option GoVal → SB → Option SB
  | _, none, sb => some (emit sb PUSHNULL [])
  | ty, some v, sb =>
    match ty with
    | .SignatureT =>
      match v with
      | .vBytes bs => some (EmitPushBytes bs sb)
      | _ => none
    | .ByteArrayT =>
      match v with
      | .vBytes bs => some (EmitPushBytes bs sb)
      | _ => none
    | .BooleanT =>
      match v with
      | .vBool b => some (EmitPushBool b sb)
      | _ => none
    | .IntegerT => EmitPushObject v sb
    | .Hash160T =>
      match v with
      | .vU160 bs => some (EmitPushSerializable bs sb)
      | _ => none
    | .Hash256T =>
      match v with
      | .vU256 bs => some (EmitPushSerializable bs sb)
      | _ => none
    | .PublicKeyT =>
      match v with
      | .vBytes bs => some (EmitPushBytes bs sb)
      | _ => none
    | .StringT =>
      match v with
      | .vStr s => some (EmitPushString s sb)
      | _ => none
    | .ArrayT =>
      match v with
      | .vParams ps =>
        (EmitPushParamsRev ps sb).map
          (fun s1 => emit (EmitPushInteger (.iN (ps.length : Int)) s1) PACK [])
      | _ => none
    | .MapT =>
      match v with
      | .vMap prs => CreateMap prs sb
      | _ => none
    | .AnyT => some (addError sb "invalid param type")
    | .InteropInterfaceT => some (addError sb "invalid param type")
    | .VoidT => some (addError sb "invalid param type")

/-- The reverse-order parameter pushes of the Array case (the loop runs from
the last element down to the first). -/
def EmitPushParamsRev : List (CPType × Option GoVal) → SB → Option SB
  | [], sb => some sb
  | (ty, val) :: rest, sb =>
    (EmitPushParamsRev rest sb).bind (fun s1 => EmitPushParameter ty val s1)

/-- CreateMap from scriptBuilder.go: emit NEWMAP, then (for a non-nil map)
the DUP / push key / push value / SETITEM sequence for every pair. -/
def CreateMap : Option (List (GoVal × GoVal)) → SB → Option SB
  | none, sb => some (emit sb NEWMAP [])
  | some prs, sb => CreateMapPairs prs (emit sb NEWMAP [])

def CreateMapPairs : List (GoVal × GoVal) → SB → Option SB
  | [], sb => some sb
  | (k, v) :: rest, sb =>
    ((EmitPushObject k (emit sb DUP [])).bind (fun s1 => EmitPushObject v s1)).bind
      (fun s2 => CreateMapPairs rest (emit s2 SETITEM []))

end

/-- The reverse-order object pushes of CreateArray and EmitDynamicCallObj
(the loop runs from the last element down to the first). -/
def EmitPushObjectsRev : List GoVal → SB → Option SB
  | [], sb => some sb
  | v :: rest, sb => (EmitPushObjectsRev rest sb).bind (fun s1 => EmitPushObject v s1)

/-- CreateArray from scriptBuilder.go: an empty or absent list emits the
single NEWARRAY0 opcode; otherwise each element is pushed via EmitPushObject
from the last down to the first, then the element count, then PACK. -/
def CreateArray (list : Option (List GoVal)) (sb : SB) : Option SB :=
  match list with
  | none => some (emit sb NEWARRAY0 [])
  | some l =>
    if l.isEmpty then some (emit sb NEWARRAY0 [])
    else
      (EmitPushObjectsRev l sb).map
        (fun s1 => emit (EmitPushInteger (.iN (l.length : Int)) s1) PACK [])

/-! ## The dynamic-call composer -/

/-- Modelled from the spec: the all-permissions call-flags sentinel (sc.All
is not among the analysed sources), an integer bit-flag value. -/
def AllCallFlags : Nat := 15

/-- Modelled from the spec: the fixed 4-byte interop hash identifying the
contract-invocation intrinsic (Call.ToInteropMethodHash is not among the
analysed sources), treated as an opaque constant. -/
def CallInteropHash : Nat := 0x627D5B52

/-- EmitDynamicCall from scriptBuilder.go. The script hash argument is the
target identity, whose canonical serialization is its byte sequence. -/
def EmitDynamicCall (scriptHash : List Nat) (operation : List Nat) (sb : SB) : Option SB :=
  (EmitPushObject (.vCallFlags AllCallFlags) (emit sb NEWARRAY0 [])).map
    (fun s1 => EmitSysCall CallInteropHash
      (EmitPushSerializable scriptHash (EmitPushString operation s1)))

/-- EmitDynamicCallObj from scriptBuilder.go. -/
def EmitDynamicCallObj (scriptHash : List Nat) (operation : List Nat)
    (objs : List GoVal) (sb : SB) : Option SB :=
  ((EmitPushObjectsRev objs sb).map
      (fun s1 => emit (EmitPushInteger (.iN (objs.length : Int)) s1) PACK [])).bind
    (fun s2 => (EmitPushObject (.vCallFlags AllCallFlags) s2).map
      (fun s3 => EmitSysCall CallInteropHash
        (EmitPushSerializable scriptHash (EmitPushString operation s3))))

/-- ToArray from scriptBuilder.go: return the buffer unconditionally and,
when errors were recorded, the single combined error whose message joins
every recorded message with newlines in record order. -/
def ToArray (sb : SB) : List Nat × Option String :=
  if sb.errs = [] then (sb.buff, none)
  else (sb.buff, some (String.intercalate "\n" sb.errs))

/-- MakeScript from scriptBuilder.go: build a fresh one-call script, with
the argument form when a non-empty argument list is supplied, and finalize. -/
def MakeScript (scriptHash : List Nat) (operation : List Nat)
    (objs : Option (List GoVal)) : Option (List Nat × Option String) :=
  match objs with
  | some l =>
    if 0 < l.length then (EmitDynamicCallObj scriptHash operation l SBempty).map ToArray
    else (EmitDynamicCall scriptHash operation SBempty).map ToArray
  | none => (EmitDynamicCall scriptHash operation SBempty).map ToArray

/-! ## Builder sessions (for the finalization claim) -/

/-- One encode call of a builder session. -/
inductive EncodeOp where
  | emitOne (op : Nat) (arg : List Nat)
  | pushBigInt (n : Int)
  | pushInteger (num : GoNum)
  | pushBool (b : Bool)
  | pushBytes (data : Option (List Nat))
  | pushString (s : List Nat)
  | pushSerializable (bs : List Nat)
  | jump (op : Nat) (offset : Int)
  | callRel (offset : Int)
  | sysCall (api : Nat)

/-- Apply one encode call to the builder state. -/
def applyOp : EncodeOp → SB → SB
  | .emitOne op arg, sb => emit sb op arg
  | .pushBigInt n, sb => EmitPushBigInt n sb
  | .pushInteger num, sb => EmitPushInteger num sb
  | .pushBool b, sb => EmitPushBool b sb
  | .pushBytes data, sb => EmitPushBytes data sb
  | .pushString s, sb => EmitPushString s sb
  | .pushSerializable bs, sb => EmitPushSerializable bs sb
  | .jump op offset, sb => EmitJump op offset sb
  | .callRel offset, sb => EmitCall offset sb
  | .sysCall api, sb => EmitSysCall api sb

/-- Run a session of encode calls in order. -/
def runOps : List EncodeOp → SB → SB
  | [], sb => sb
  | o :: rest, sb => runOps rest (applyOp o sb)

/-- Left-to-right sequencing of object pushes (the order in which the
reverse loop of CreateArray actually emits: the last element first). -/
def seqPushObjects : List GoVal → SB → Option SB
  | [], sb => some sb
  | v :: rest, sb => (EmitPushObject v sb).bind (seqPushObjects rest)

/-- Concatenation of a list of state deltas. -/
def SB.concat : List SB → SB
  | [] => SBempty
  | d :: rest => d.app (SB.concat rest)

/-- The combined delta (appended bytes and error messages, in order) of a
session of encode calls. -/
def sessionDelta : List EncodeOp → SB
  | [] => SBempty
  | o :: rest => (applyOp o SBempty).app (sessionDelta rest)

/-- A state transformer is local when it only appends data that does not
depend on the incoming state. Every encode operation of the builder is
local; this is what makes later calls of a session independent of earlier
failures. -/
def IsLocal (f : SB → SB) : Prop := ∀ s, f s = s.app (f SBempty)

/-- Locality for the possibly-panicking operations: the outcome (panic or
appended data) does not depend on the incoming state. -/
def IsLocalOpt (F : SB → Option SB) : Prop :=
  ∀ s, F s = (F SBempty).map (fun d => s.app d)

/-! ## Facts about the minimal two's-complement representation -/

theorem twosLEAux_ne_nil (fuel : Nat) (n : Int) (h : 0 < fuel) :
    twosLEAux fuel n ≠ [] := by
  cases fuel with
  | zero => omega
  | succ f => rw [twosLEAux]; split <;> simp

theorem fromLE_cons_cons (a c : Nat) (l : List Nat) :
    fromLE (a :: c :: l) = (a : Int) + 256 * fromLE (c :: l) := rfl

theorem getLastD_cons_of_ne_nil (a d : Nat) (l : List Nat) (h : l ≠ []) :
    (a :: l).getLastD d = l.getLastD d := by
  cases l with
  | nil => exact absurd rfl h
  | cons c l2 => rfl

theorem getLastD_single (a d : Nat) : ([a] : List Nat).getLastD d = a := rfl

theorem fromLE_single (b : Nat) :
    fromLE [b] = (b : Int) - (if 128 ≤ b then 256 else 0) := rfl

theorem twosLEAux_value (fuel : Nat) (n : Int) (h : n.natAbs < fuel) :
    fromLE (twosLEAux fuel n) = n := by
  induction fuel generalizing n with
  | zero => omega
  | succ f ih =>
    rw [twosLEAux]
    split
    · rename_i hr
      simp only [fromLE]
      split <;> omega
    · rename_i hr
      have hdec : (n / 256).natAbs < n.natAbs := by omega
      have hd : (n / 256).natAbs < f := by omega
      have hne := twosLEAux_ne_nil f (n / 256) (by omega)
      obtain ⟨c, l, hcl⟩ := List.exists_cons_of_ne_nil hne
      rw [hcl, fromLE_cons_cons, ← hcl, ih (n / 256) hd]
      omega

theorem twosLEAux_last (fuel : Nat) (n : Int) (h : n.natAbs < fuel) :
    128 ≤ (twosLEAux fuel n).getLastD 0 ↔ n < 0 := by
  induction fuel generalizing n with
  | zero => omega
  | succ f ih =>
    rw [twosLEAux]
    split
    · rename_i hr
      rw [getLastD_single]
      omega
    · rename_i hr
      have hd : (n / 256).natAbs < f := by omega
      have hne := twosLEAux_ne_nil f (n / 256) (by omega)
      rw [getLastD_cons_of_ne_nil _ _ _ hne, ih (n / 256) hd]
      omega

theorem BigIntToNeoBytes_ne_nil (n : Int) : BigIntToNeoBytes n ≠ [] :=
  twosLEAux_ne_nil _ _ (Nat.succ_pos _)

theorem BigIntToNeoBytes_fromLE (n : Int) : fromLE (BigIntToNeoBytes n) = n :=
  twosLEAux_value _ n (Nat.lt_succ_self _)

theorem BigIntToNeoBytes_sign (n : Int) :
    128 ≤ (BigIntToNeoBytes n).getLastD 0 ↔ n < 0 :=
  twosLEAux_last _ n (Nat.lt_succ_self _)

/-- The sign-extension byte chosen by the padding is 0xFF exactly for a
negative number and 0x00 otherwise. -/
theorem BigIntToNeoBytes_padByte (n : Int) :
    (if 128 ≤ (BigIntToNeoBytes n).getLastD 0 then (255 : Nat) else 0)
      = (if n < 0 then (255 : Nat) else 0) := by
  by_cases hn : n < 0
  · rw [if_pos ((BigIntToNeoBytes_sign n).mpr hn), if_pos hn]
  · rw [if_neg (fun hc => hn ((BigIntToNeoBytes_sign n).mp hc)), if_neg hn]

/-- Appending one copy of the sign-extension byte does not change the
denoted value. -/
theorem fromLE_snoc_sign (l : List Nat) (h : l ≠ []) :
    fromLE (l ++ [if 128 ≤ l.getLastD 0 then 255 else 0]) = fromLE l := by
  induction l with
  | nil => exact absurd rfl h
  | cons b l ih =>
    cases l with
    | nil =>
      rw [getLastD_single, List.cons_append, List.nil_append]
      by_cases hb : 128 ≤ b
      · rw [if_pos hb, fromLE_cons_cons, fromLE_single, fromLE_single,
          if_pos hb, if_pos (show 128 ≤ 255 by omega)]
        omega
      · rw [if_neg hb, fromLE_cons_cons, fromLE_single, fromLE_single,
          if_neg hb, if_neg (show ¬128 ≤ 0 by omega)]
        omega
    | cons c l2 =>
      have hne : c :: l2 ≠ [] := by simp
      have ih2 := ih hne
      rw [List.cons_append] at ih2
      rw [getLastD_cons_of_ne_nil _ _ _ hne, List.cons_append, List.cons_append,
        fromLE_cons_cons b c (l2 ++ [if 128 ≤ (c :: l2).getLastD 0 then 255 else 0]),
        fromLE_cons_cons b c l2, ih2]

/-- Appending any number of copies of the sign-extension byte does not
change the denoted value. -/
theorem fromLE_pad_sign (k : Nat) (l : List Nat) (h : l ≠ []) :
    fromLE (l ++ List.replicate k (if 128 ≤ l.getLastD 0 then 255 else 0)) = fromLE l := by
  induction k generalizing l with
  | zero => simp
  | succ k ih =>
    have hstep := fromLE_snoc_sign l h
    have hlast : (l ++ [if 128 ≤ l.getLastD 0 then 255 else 0]).getLastD 0
        = (if 128 ≤ l.getLastD 0 then 255 else 0) := by
      simp [List.getLastD_concat]
    have hsb : (if 128 ≤ (l ++ [if 128 ≤ l.getLastD 0 then 255 else 0]).getLastD 0 then (255 : Nat) else 0)
        = (if 128 ≤ l.getLastD 0 then (255 : Nat) else 0) := by
      rw [hlast]
      split_ifs <;> omega
    have hr : l ++ List.replicate (k + 1) (if 128 ≤ l.getLastD 0 then 255 else 0)
        = (l ++ [if 128 ≤ l.getLastD 0 then 255 else 0])
            ++ List.replicate k (if 128 ≤ (l ++ [if 128 ≤ l.getLastD 0 then 255 else 0]).getLastD 0 then 255 else 0) := by
      rw [hsb, List.append_assoc, List.replicate_succ]
      rfl
    rw [hr, ih (l ++ [if 128 ≤ l.getLastD 0 then 255 else 0]) (by simp), hstep]

/-- Padding with the sign-extension byte preserves the denoted value. -/
theorem fromLE_PadRight (l : List Nat) (h : l ≠ []) (k : Nat) :
    fromLE (PadRight l k) = fromLE l :=
  fromLE_pad_sign (k - l.length) l h

/-- EmitPushBigInt, outside the small-integer range and within 32 payload
bytes, emits the push-integer opcode of the smallest fitting width class
followed by the sign-padded payload. -/
theorem EmitPushBigInt_wide (n : Int) (sb : SB)
    (hout : ¬(-1 ≤ n ∧ n ≤ 16)) (hlen : (BigIntToNeoBytes n).length ≤ 32) :
    EmitPushBigInt n sb
      = emit sb (pushIntOp (minClass (BigIntToNeoBytes n).length))
          (PadRight (BigIntToNeoBytes n) (minClass (BigIntToNeoBytes n).length)) := by
  have hne := BigIntToNeoBytes_ne_nil n
  have hpos : 0 < (BigIntToNeoBytes n).length := List.length_pos.mpr hne
  simp only [EmitPushBigInt, if_neg hout]
  by_cases h1 : (BigIntToNeoBytes n).length = 1
  · have hc : minClass (BigIntToNeoBytes n).length = 1 := by
      unfold minClass; split_ifs <;> omega
    have hp : PadRight (BigIntToNeoBytes n) 1 = BigIntToNeoBytes n := by
      rw [PadRight, h1]; simp
    rw [if_pos h1, hc, hp]
    rfl
  · rw [if_neg h1]
    by_cases h2 : (BigIntToNeoBytes n).length = 2
    · have hc : minClass (BigIntToNeoBytes n).length = 2 := by
        unfold minClass; split_ifs <;> omega
      have hp : PadRight (BigIntToNeoBytes n) 2 = BigIntToNeoBytes n := by
        rw [PadRight, h2]; simp
      rw [if_pos h2, hc, hp]
      rfl
    · rw [if_neg h2]
      by_cases h4 : (BigIntToNeoBytes n).length ≤ 4
      · have hc : minClass (BigIntToNeoBytes n).length = 4 := by
          unfold minClass; split_ifs <;> omega
        rw [if_pos h4, hc]
        rfl
      · rw [if_neg h4]
        by_cases h8 : (BigIntToNeoBytes n).length ≤ 8
        · have hc : minClass (BigIntToNeoBytes n).length = 8 := by
            unfold minClass; split_ifs <;> omega
          rw [if_pos h8, hc]
          rfl
        · rw [if_neg h8]
          by_cases h16 : (BigIntToNeoBytes n).length ≤ 16
          · have hc : minClass (BigIntToNeoBytes n).length = 16 := by
              unfold minClass; split_ifs <;> omega
            rw [if_pos h16, hc]
            rfl
          · rw [if_neg h16]
            have hc : minClass (BigIntToNeoBytes n).length = 32 := by
              unfold minClass; split_ifs <;> omega
            rw [if_pos hlen, hc]
            rfl

/-- The padded payload written by EmitPushBigInt: the minimal representation
extended on the high end with the sign-extension byte of the value. -/
theorem PadRight_sign_replicate (n : Int) (k : Nat) :
    PadRight (BigIntToNeoBytes n) k
      = BigIntToNeoBytes n
          ++ List.replicate (k - (BigIntToNeoBytes n).length) (if n < 0 then 255 else 0) := by
  rw [PadRight, BigIntToNeoBytes_padByte]

theorem fromLE_PadRight_BigInt (n : Int) (k : Nat) :
    fromLE (PadRight (BigIntToNeoBytes n) k) = n := by
  rw [fromLE_PadRight _ (BigIntToNeoBytes_ne_nil n) k, BigIntToNeoBytes_fromLE]

/-- C1: for every big integer outside [-1, 16] whose minimal two's-complement
little-endian representation is at most 32 bytes long, EmitPushBigInt selects
the smallest width class from 1/2/4/8/16/32 bytes that is at least the
representation's length, pads the representation on the high end to the class
width with the sign-extension byte (0x00 for non-negative values, 0xFF for
negative values), and emits the width-tagged push-integer opcode followed by
the padded bytes; the padded payload still denotes the same value (so a
negative value, such as -100000 with a 3-byte minimal representation, stays
negative), 127 selects the 1-byte class with payload 0x7F, and 128, 255 and
-129 select the 2-byte class. -/
theorem c1_pushBigInt_width_class_and_sign_padding (n : Int) (sb : SB)
    (hout : ¬(-1 ≤ n ∧ n ≤ 16)) (hlen : (BigIntToNeoBytes n).length ≤ 32) :
    ((EmitPushBigInt n sb).buff
        = sb.buff
            ++ pushIntOp (minClass (BigIntToNeoBytes n).length)
              :: (BigIntToNeoBytes n
                  ++ List.replicate
                      (minClass (BigIntToNeoBytes n).length - (BigIntToNeoBytes n).length)
                      (if n < 0 then 255 else 0))
      ∧ (EmitPushBigInt n sb).errs = sb.errs
      ∧ (BigIntToNeoBytes n).length ≤ minClass (BigIntToNeoBytes n).length
      ∧ (∀ c ∈ [1, 2, 4, 8, 16, 32], (BigIntToNeoBytes n).length ≤ c →
            minClass (BigIntToNeoBytes n).length ≤ c)
      ∧ minClass (BigIntToNeoBytes n).length ∈ [1, 2, 4, 8, 16, 32]
      ∧ fromLE (BigIntToNeoBytes n
            ++ List.replicate
                (minClass (BigIntToNeoBytes n).length - (BigIntToNeoBytes n).length)
                (if n < 0 then 255 else 0)) = n)
    ∧ (EmitPushBigInt 127 SBempty).buff = [PUSHINT8, 0x7F]
    ∧ (EmitPushBigInt 128 SBempty).buff = [PUSHINT16, 0x80, 0x00]
    ∧ (EmitPushBigInt 255 SBempty).buff = [PUSHINT16, 0xFF, 0x00]
    ∧ (EmitPushBigInt (-129) SBempty).buff = [PUSHINT16, 0x7F, 0xFF]
    ∧ BigIntToNeoBytes (-100000) = [0x60, 0x79, 0xFE]
    ∧ (EmitPushBigInt (-100000) SBempty).buff = [PUSHINT32, 0x60, 0x79, 0xFE, 0xFF]
    ∧ fromLE [0x60, 0x79, 0xFE, 0xFF] = -100000 := by
  have hpad := PadRight_sign_replicate n (minClass (BigIntToNeoBytes n).length)
  have hmain := EmitPushBigInt_wide n sb hout hlen
  refine ⟨⟨?_, ?_, ?_, ?_, ?_, ?_⟩, by decide, by decide, by decide, by decide,
    by decide, by decide, by decide⟩
  · rw [hmain, emit, ← hpad]
  · rw [hmain]; rfl
  · unfold minClass; split_ifs <;> omega
  · intro c hc hlc
    unfold minClass
    fin_cases hc <;> split_ifs <;> omega
  · unfold minClass
    split_ifs <;> simp
  · rw [← hpad, fromLE_PadRight_BigInt]

/-- Witness for C1 at the concrete input -100000 (3-byte minimal
representation, padded to the 4-byte class with 0xFF). -/
theorem c1_witness :
    (¬(-1 ≤ (-100000 : Int) ∧ (-100000 : Int) ≤ 16))
    ∧ (BigIntToNeoBytes (-100000)).length ≤ 32
    ∧ (EmitPushBigInt (-100000) SBempty).buff
        = SBempty.buff
            ++ pushIntOp (minClass (BigIntToNeoBytes (-100000)).length)
              :: (BigIntToNeoBytes (-100000)
                  ++ List.replicate
                      (minClass (BigIntToNeoBytes (-100000)).length
                        - (BigIntToNeoBytes (-100000)).length)
                      (if (-100000 : Int) < 0 then 255 else 0)) :=
  ⟨by decide, by decide,
    (c1_pushBigInt_width_class_and_sign_padding (-100000) SBempty (by decide) (by decide)).1.1⟩

/-- C5: for every integer v in [-1, 16], EmitPushBigInt appends exactly one
byte, the base opcode of the reserved 17-opcode small-integer range (PUSHM1)
plus (v + 1), and records no error. -/
theorem c5_pushBigInt_small_integer (n : Int) (sb : SB)
    (h1 : -1 ≤ n) (h2 : n ≤ 16) :
    (EmitPushBigInt n sb).buff = sb.buff ++ [PUSHM1 + (n + 1).toNat]
    ∧ (EmitPushBigInt n sb).errs = sb.errs := by
  rw [EmitPushBigInt, if_pos ⟨h1, h2⟩]
  constructor
  · show sb.buff ++ [(PUSH0 + (n % 256).toNat) % 256] = sb.buff ++ [PUSHM1 + (n + 1).toNat]
    have : (PUSH0 + (n % 256).toNat) % 256 = PUSHM1 + (n + 1).toNat := by
      unfold PUSH0 PUSHM1
      omega
    rw [this]
  · rfl

/-- Witness for C5 at v = -1: the emitted byte is PUSHM1 itself. -/
theorem c5_witness :
    -1 ≤ (-1 : Int) ∧ (-1 : Int) ≤ 16
    ∧ (EmitPushBigInt (-1) SBempty).buff = SBempty.buff ++ [PUSHM1 + ((-1 : Int) + 1).toNat] :=
  ⟨by decide, by decide, (c5_pushBigInt_small_integer (-1) SBempty (by decide) (by decide)).1⟩

/-- C4 counterexample: the empty-but-present byte sequence records no error
and appends two bytes, refuting the claim that every empty or absent input
records an error and appends nothing. -/
theorem c4_counterexample :
    (EmitPushBytes (some []) SBempty).errs = []
    ∧ (EmitPushBytes (some []) SBempty).buff = [PUSHDATA1, 0]
    ∧ (EmitPushBytes (some []) SBempty).buff ≠ SBempty.buff := by decide

/-- C4 amended: only the absent (nil) byte sequence records the error and
appends zero bytes; the empty-but-present sequence is emitted as a
zero-length push (PUSHDATA1 with length byte 0) and records no error. -/
theorem c4_amended_nil_input_only (sb : SB) :
    ((EmitPushBytes none sb).buff = sb.buff
      ∧ (EmitPushBytes none sb).errs = sb.errs ++ ["data is empty"])
    ∧ ((EmitPushBytes (some []) sb).buff = sb.buff ++ [PUSHDATA1, 0]
      ∧ (EmitPushBytes (some []) sb).errs = sb.errs) :=
  ⟨⟨rfl, rfl⟩, ⟨rfl, rfl⟩⟩

/-- The 2-byte little-endian length field decodes to the length it encodes
whenever the length fits 16 bits. -/
theorem unsignedLE_UInt16ToBytes (l : Nat) (h : l < 65536) :
    unsignedLE (UInt16ToBytes l) = l := by
  simp only [UInt16ToBytes, unsignedLE]
  omega

/-- The 4-byte little-endian length field decodes to the length it encodes
whenever the length fits 32 bits. -/
theorem unsignedLE_UInt32ToBytes (l : Nat) (h : l < 2 ^ 32) :
    unsignedLE (UInt32ToBytes l) = l := by
  simp only [UInt32ToBytes, unsignedLE]
  omega

/-- C6 amended: a non-empty byte sequence of length l is emitted as the
push-data opcode of prefix width 1 (l < 256), 2 (l < 65536) or 4 bytes,
followed by the length encoded little-endian at that width — the 4-byte
field holding l reduced mod 2^32, which equals l whenever l fits 32 bits —
followed by the l input bytes verbatim, and nothing else; no error is
recorded. -/
theorem c6_pushBytes_framing (d : List Nat) (sb : SB) (hne : d ≠ []) :
    ((d.length < 256 →
        (EmitPushBytes (some d) sb).buff = sb.buff ++ PUSHDATA1 :: d.length :: d)
      ∧ (256 ≤ d.length → d.length < 65536 →
          (EmitPushBytes (some d) sb).buff
            = sb.buff ++ PUSHDATA2 :: (UInt16ToBytes d.length ++ d))
      ∧ (65536 ≤ d.length →
          (EmitPushBytes (some d) sb).buff
            = sb.buff ++ PUSHDATA4 :: (UInt32ToBytes d.length ++ d))
      ∧ (EmitPushBytes (some d) sb).errs = sb.errs)
    ∧ (d.length < 65536 → unsignedLE (UInt16ToBytes d.length) = d.length)
    ∧ (d.length < 2 ^ 32 → unsignedLE (UInt32ToBytes d.length) = d.length) := by
  refine ⟨⟨?_, ?_, ?_, ?_⟩, unsignedLE_UInt16ToBytes d.length,
    unsignedLE_UInt32ToBytes d.length⟩
  · intro h1
    simp only [EmitPushBytes, if_pos h1]
    rfl
  · intro h1 h2
    simp only [EmitPushBytes, if_neg (by omega : ¬d.length < 256), if_pos h2]
    rfl
  · intro h1
    simp only [EmitPushBytes, if_neg (by omega : ¬d.length < 256),
      if_neg (by omega : ¬d.length < 65536)]
    rfl
  · simp only [EmitPushBytes]
    split_ifs <;> rfl

/-- Witness for C6 at a 3-byte input with the 1-byte prefix class. -/
theorem c6_witness :
    ([7, 8, 9] : List Nat) ≠ []
    ∧ ([7, 8, 9] : List Nat).length < 256
    ∧ (EmitPushBytes (some [7, 8, 9]) SBempty).buff
        = SBempty.buff ++ PUSHDATA1 :: ([7, 8, 9] : List Nat).length :: [7, 8, 9] :=
  ⟨by decide, by decide, (c6_pushBytes_framing [7, 8, 9] SBempty (by decide)).1.1 (by decide)⟩

/-- C6 counterexample: at length 2^32 the 4-byte length field wraps to zero,
so the emitted field does not encode the length l itself as the claim states
for every non-empty input. -/
theorem c6_counterexample :
    (EmitPushBytes (some (List.replicate (2 ^ 32) 0)) SBempty).buff
      = PUSHDATA4 :: ([0, 0, 0, 0] ++ List.replicate (2 ^ 32) 0)
    ∧ unsignedLE [0, 0, 0, 0] ≠ (List.replicate (2 ^ 32) (0 : Nat)).length := by
  have hu : UInt32ToBytes (2 ^ 32) = [0, 0, 0, 0] := by
    unfold UInt32ToBytes
    norm_num
  constructor
  · have hb : EmitPushBytes (some (List.replicate (2 ^ 32) 0)) SBempty
        = emit SBempty PUSHDATA4 (UInt32ToBytes (2 ^ 32) ++ List.replicate (2 ^ 32) 0) := by
      simp only [EmitPushBytes, List.length_replicate]
      norm_num
    rw [hb, hu]
    rfl
  · rw [List.length_replicate]
    decide

/-- Every even opcode in the jump range has its long-form partner at the
next (odd) value, encoded errors and payloads as described by EmitJump. -/
theorem EmitJump_errs (op : Nat) (offset : Int) (sb : SB) :
    (EmitJump op offset sb).errs
      = if op < JMP ∨ JMPLE_L < op
          then sb.errs ++ ["argument out of range: invalid OpCode"] else sb.errs := by
  simp only [EmitJump]
  split_ifs <;> rfl

theorem EmitJump_buff (op : Nat) (offset : Int) (sb : SB) :
    (EmitJump op offset sb).buff
      = sb.buff ++ (if op % 2 = 0 ∧ (offset < -128 ∨ 127 < offset)
          then (op + 1) :: IntToBytes offset
          else if op % 2 = 0 then [op, (offset % 256).toNat]
          else op :: IntToBytes offset) := by
  simp only [EmitJump]
  split_ifs <;> first | rfl | (exfalso; omega)

/-- The 4-byte little-endian signed offset field decodes to the offset for
every offset fitting a signed 32-bit integer. -/
theorem fromLE_IntToBytes (offset : Int) (h1 : -(2 ^ 31) ≤ offset) (h2 : offset < 2 ^ 31) :
    fromLE (IntToBytes offset) = offset := by
  unfold IntToBytes UInt32ToBytes
  rw [fromLE_cons_cons, fromLE_cons_cons, fromLE_cons_cons, fromLE_single]
  split_ifs <;> omega

/-- C7: EmitJump records an error for every opcode outside the jump range
(and none inside it); a short-form (even) jump opcode whose offset falls
outside [-128, 127] is emitted as its paired long-form opcode (value + 1)
followed by the 4-byte little-endian signed offset; with the offset in
range the original opcode is emitted with a single offset byte; an odd
(long-form) opcode always takes the 4-byte little-endian signed offset,
which decodes to the offset for every signed-32-bit offset. -/
theorem c7_jump_form_selection (op : Nat) (offset : Int) (sb : SB) :
    ((op < JMP ∨ JMPLE_L < op) →
        (EmitJump op offset sb).errs = sb.errs ++ ["argument out of range: invalid OpCode"])
    ∧ (JMP ≤ op → op ≤ JMPLE_L → (EmitJump op offset sb).errs = sb.errs)
    ∧ (op % 2 = 0 → (offset < -128 ∨ 127 < offset) →
        (EmitJump op offset sb).buff = sb.buff ++ (op + 1) :: IntToBytes offset)
    ∧ (op % 2 = 0 → -128 ≤ offset → offset ≤ 127 →
        (EmitJump op offset sb).buff = sb.buff ++ [op, (offset % 256).toNat])
    ∧ (op % 2 = 1 →
        (EmitJump op offset sb).buff = sb.buff ++ op :: IntToBytes offset)
    ∧ (-(2 ^ 31) ≤ offset → offset < 2 ^ 31 → fromLE (IntToBytes offset) = offset) := by
  refine ⟨?_, ?_, ?_, ?_, ?_, fromLE_IntToBytes offset⟩
  · intro h
    rw [EmitJump_errs, if_pos h]
  · intro h1 h2
    rw [EmitJump_errs, if_neg (by omega)]
  · intro he ho
    rw [EmitJump_buff, if_pos ⟨he, ho⟩]
  · intro he h1 h2
    rw [EmitJump_buff, if_neg (by omega : ¬(op % 2 = 0 ∧ (offset < -128 ∨ 127 < offset))),
      if_pos he]
  · intro hodd
    rw [EmitJump_buff, if_neg (by omega : ¬(op % 2 = 0 ∧ (offset < -128 ∨ 127 < offset))),
      if_neg (by omega)]

/-- Witness for C7: the short-form opcode JMP with offset 200 is promoted to
JMP_L (value + 1) with a 4-byte little-endian offset. -/
theorem c7_witness :
    JMP % 2 = 0 ∧ ((200 : Int) < -128 ∨ 127 < (200 : Int))
    ∧ (EmitJump JMP 200 SBempty).buff = SBempty.buff ++ (JMP + 1) :: IntToBytes 200 :=
  ⟨by decide, by decide,
    (c7_jump_form_selection JMP 200 SBempty).2.2.1 (by decide) (by decide)⟩

/-- C10: EmitPushInteger first converts a uint64 argument to a signed 64-bit
integer, so a value of at least 2^63 is encoded as v - 2^64 (a negative
number, different from v); only a value below 2^63 is encoded as v itself. -/
theorem c10_uint64_signed_reinterpretation (v : Nat) (sb : SB) (h : v < 2 ^ 64) :
    (v < 2 ^ 63 → EmitPushInteger (.u64 v) sb = EmitPushBigInt (v : Int) sb)
    ∧ (2 ^ 63 ≤ v →
        EmitPushInteger (.u64 v) sb = EmitPushBigInt ((v : Int) - 2 ^ 64) sb
        ∧ (v : Int) - 2 ^ 64 < 0
        ∧ (v : Int) - 2 ^ 64 ≠ (v : Int)) := by
  constructor
  · intro hlt
    show EmitPushBigInt (goInt64OfUInt64 v) sb = EmitPushBigInt (v : Int) sb
    have : goInt64OfUInt64 v = (v : Int) := by
      unfold goInt64OfUInt64
      omega
    rw [this]
  · intro hge
    refine ⟨?_, by omega, by omega⟩
    show EmitPushBigInt (goInt64OfUInt64 v) sb = EmitPushBigInt ((v : Int) - 2 ^ 64) sb
    have : goInt64OfUInt64 v = (v : Int) - 2 ^ 64 := by
      unfold goInt64OfUInt64
      omega
    rw [this]

/-! ## Locality of the encode operations -/

theorem SB.empty_app (d : SB) : SBempty.app d = d := by
  simp [SB.app, SBempty]

theorem SB.app_empty (s : SB) : s.app SBempty = s := by
  simp [SB.app, SBempty]

theorem SB.app_assoc (s d e : SB) : (s.app d).app e = s.app (d.app e) := by
  simp [SB.app, List.append_assoc]

theorem isLocal_id : IsLocal (fun s => s) := by
  intro s
  rw [SB.app_empty]

theorem isLocal_comp (f g : SB → SB) (hf : IsLocal f) (hg : IsLocal g) :
    IsLocal (fun s => g (f s)) := by
  intro s
  dsimp only
  rw [hf s, hg (s.app (f SBempty)), hg (f SBempty), SB.app_assoc]

theorem isLocalOpt_some (f : SB → SB) (hf : IsLocal f) :
    IsLocalOpt (fun s => some (f s)) := by
  intro s
  dsimp only
  rw [hf s]
  rfl

theorem isLocalOpt_none : IsLocalOpt (fun _ => none) := by
  intro s
  rfl

theorem isLocalOpt_bind (F G : SB → Option SB)
    (hF : IsLocalOpt F) (hG : IsLocalOpt G) :
    IsLocalOpt (fun s => (F s).bind G) := by
  intro s
  dsimp only
  rw [hF s]
  cases F SBempty with
  | none => rfl
  | some d =>
    show G (s.app d) = ((G d).map fun e => s.app e)
    rw [hG (s.app d), hG d]
    cases G SBempty with
    | none => rfl
    | some e =>
      show some ((s.app d).app e) = some (s.app (d.app e))
      rw [SB.app_assoc]

theorem isLocalOpt_comp_left (g : SB → SB) (F : SB → Option SB)
    (hg : IsLocal g) (hF : IsLocalOpt F) :
    IsLocalOpt (fun s => F (g s)) := by
  intro s
  dsimp only
  rw [hg s, hF (s.app (g SBempty)), hF (g SBempty)]
  cases F SBempty with
  | none => rfl
  | some d =>
    show some ((s.app (g SBempty)).app d) = some (s.app ((g SBempty).app d))
    rw [SB.app_assoc]

theorem isLocalOpt_map (F : SB → Option SB) (g : SB → SB)
    (hF : IsLocalOpt F) (hg : IsLocal g) :
    IsLocalOpt (fun s => (F s).map g) := by
  intro s
  dsimp only
  rw [hF s]
  cases F SBempty with
  | none => rfl
  | some d =>
    show some (g (s.app d)) = some (s.app (g d))
    rw [hg (s.app d), hg d, SB.app_assoc]

theorem emit_isLocal (op : Nat) (arg : List Nat) : IsLocal (fun s => emit s op arg) := by
  intro s
  simp [emit, SB.app, SBempty]

theorem addError_isLocal (msg : String) : IsLocal (fun s => addError s msg) := by
  intro s
  simp [addError, SB.app, SBempty]

theorem EmitPushBigInt_isLocal (n : Int) : IsLocal (EmitPushBigInt n) := by
  intro s
  simp only [EmitPushBigInt]
  split_ifs <;> simp [emit, addError, SB.app, SBempty]

theorem EmitPushBool_isLocal (b : Bool) : IsLocal (EmitPushBool b) := by
  intro s
  cases b <;> simp [EmitPushBool, emit, SB.app, SBempty]

theorem EmitPushBytes_isLocal (data : Option (List Nat)) :
    IsLocal (EmitPushBytes data) := by
  intro s
  cases data with
  | none => simp [EmitPushBytes, addError, SB.app, SBempty]
  | some d =>
    simp only [EmitPushBytes]
    split_ifs <;> simp [emit, SB.app, SBempty]

theorem EmitPushString_isLocal (str : List Nat) : IsLocal (EmitPushString str) :=
  EmitPushBytes_isLocal (some str)

theorem EmitPushSerializable_isLocal (bs : List Nat) :
    IsLocal (EmitPushSerializable bs) :=
  EmitPushBytes_isLocal (some bs)

theorem EmitPushInteger_isLocal (num : GoNum) : IsLocal (EmitPushInteger num) := by
  cases num with
  | i8 n => exact EmitPushBigInt_isLocal n
  | u8 n => exact EmitPushBigInt_isLocal (n : Int)
  | i16 n => exact EmitPushBigInt_isLocal n
  | u16 n => exact EmitPushBigInt_isLocal (n : Int)
  | i32 n => exact EmitPushBigInt_isLocal n
  | u32 n => exact EmitPushBigInt_isLocal (n : Int)
  | i64 n => exact EmitPushBigInt_isLocal n
  | u64 n => exact EmitPushBigInt_isLocal (goInt64OfUInt64 n)
  | iN n => exact EmitPushBigInt_isLocal n
  | uN n => exact EmitPushBigInt_isLocal (goInt64OfUInt64 n)
  | nonInteger => exact addError_isLocal "param is not of integer type"

theorem EmitJump_isLocal (op : Nat) (offset : Int) :
    IsLocal (EmitJump op offset) := by
  intro s
  simp only [EmitJump]
  split_ifs <;> simp [emit, addError, SB.app, SBempty]

theorem EmitCall_isLocal (offset : Int) : IsLocal (EmitCall offset) := by
  intro s
  simp only [EmitCall]
  split_ifs <;> simp [emit, SB.app, SBempty]

theorem EmitSysCall_isLocal (api : Nat) : IsLocal (EmitSysCall api) :=
  emit_isLocal SYSCALL (UInt32ToBytes api)

mutual

theorem EmitPushObject_local : ∀ (v : GoVal), IsLocalOpt (EmitPushObject v)
  | .vCallFlags n => isLocalOpt_some _ (EmitPushBigInt_isLocal (n : Int))
  | .vBool b => isLocalOpt_some _ (EmitPushBool_isLocal b)
  | .vBytes bs => isLocalOpt_some _ (EmitPushBytes_isLocal bs)
  | .vStr s => isLocalOpt_some _ (EmitPushString_isLocal s)
  | .vBigInt n => isLocalOpt_some _ (EmitPushBigInt_isLocal n)
  | .vBigIntPtr n => isLocalOpt_some _ (EmitPushBigInt_isLocal n)
  | .vU160 bs => isLocalOpt_some _ (EmitPushSerializable_isLocal bs)
  | .vU256 bs => isLocalOpt_some _ (EmitPushSerializable_isLocal bs)
  | .vNum num => isLocalOpt_some _ (EmitPushInteger_isLocal num)
  | .vParam ty val => EmitPushParameter_local ty val
  | .vNilT => isLocalOpt_some _ (emit_isLocal PUSHNULL [])
  | .vParams _ => isLocalOpt_some _ (addError_isLocal "invalid argument type")
  | .vMap _ => isLocalOpt_some _ (addError_isLocal "invalid argument type")
  | .vOther => isLocalOpt_some _ (addError_isLocal "invalid argument type")

theorem EmitPushParameter_local : ∀ (ty : CPType) (val : Option GoVal),
    IsLocalOpt (EmitPushParameter ty val)
  | _, none => isLocalOpt_some _ (emit_isLocal PUSHNULL [])
  | .SignatureT, some v =>
    match v with
    | .vBytes bs => isLocalOpt_some _ (EmitPushBytes_isLocal bs)
    | .vCallFlags _ => isLocalOpt_none
    | .vBool _ => isLocalOpt_none
    | .vStr _ => isLocalOpt_none
    | .vBigInt _ => isLocalOpt_none
    | .vBigIntPtr _ => isLocalOpt_none
    | .vU160 _ => isLocalOpt_none
    | .vU256 _ => isLocalOpt_none
    | .vNum _ => isLocalOpt_none
    | .vParam _ _ => isLocalOpt_none
    | .vParams _ => isLocalOpt_none
    | .vMap _ => isLocalOpt_none
    | .vNilT => isLocalOpt_none
    | .vOther => isLocalOpt_none
  | .ByteArrayT, some v =>
    match v with
    | .vBytes bs => isLocalOpt_some _ (EmitPushBytes_isLocal bs)
    | .vCallFlags _ => isLocalOpt_none
    | .vBool _ => isLocalOpt_none
    | .vStr _ => isLocalOpt_none
    | .vBigInt _ => isLocalOpt_none
    | .vBigIntPtr _ => isLocalOpt_none
    | .vU160 _ => isLocalOpt_none
    | .vU256 _ => isLocalOpt_none
    | .vNum _ => isLocalOpt_none
    | .vParam _ _ => isLocalOpt_none
    | .vParams _ => isLocalOpt_none
    | .vMap _ => isLocalOpt_none
    | .vNilT => isLocalOpt_none
    | .vOther => isLocalOpt_none
  | .BooleanT, some v =>
    match v with
    | .vBool b => isLocalOpt_some _ (EmitPushBool_isLocal b)
    | .vCallFlags _ => isLocalOpt_none
    | .vBytes _ => isLocalOpt_none
    | .vStr _ => isLocalOpt_none
    | .vBigInt _ => isLocalOpt_none
    | .vBigIntPtr _ => isLocalOpt_none
    | .vU160 _ => isLocalOpt_none
    | .vU256 _ => isLocalOpt_none
    | .vNum _ => isLocalOpt_none
    | .vParam _ _ => isLocalOpt_none
    | .vParams _ => isLocalOpt_none
    | .vMap _ => isLocalOpt_none
    | .vNilT => isLocalOpt_none
    | .vOther => isLocalOpt_none
  | .IntegerT, some v => EmitPushObject_local v
  | .Hash160T, some v =>
    match v with
    | .vU160 bs => isLocalOpt_some _ (EmitPushSerializable_isLocal bs)
    | .vCallFlags _ => isLocalOpt_none
    | .vBool _ => isLocalOpt_none
    | .vBytes _ => isLocalOpt_none
    | .vStr _ => isLocalOpt_none
    | .vBigInt _ => isLocalOpt_none
    | .vBigIntPtr _ => isLocalOpt_none
    | .vU256 _ => isLocalOpt_none
    | .vNum _ => isLocalOpt_none
    | .vParam _ _ => isLocalOpt_none
    | .vParams _ => isLocalOpt_none
    | .vMap _ => isLocalOpt_none
    | .vNilT => isLocalOpt_none
    | .vOther => isLocalOpt_none
  | .Hash256T, some v =>
    match v with
    | .vU256 bs => isLocalOpt_some _ (EmitPushSerializable_isLocal bs)
    | .vCallFlags _ => isLocalOpt_none
    | .vBool _ => isLocalOpt_none
    | .vBytes _ => isLocalOpt_none
    | .vStr _ => isLocalOpt_none
    | .vBigInt _ => isLocalOpt_none
    | .vBigIntPtr _ => isLocalOpt_none
    | .vU160 _ => isLocalOpt_none
    | .vNum _ => isLocalOpt_none
    | .vParam _ _ => isLocalOpt_none
    | .vParams _ => isLocalOpt_none
    | .vMap _ => isLocalOpt_none
    | .vNilT => isLocalOpt_none
    | .vOther => isLocalOpt_none
  | .PublicKeyT, some v =>
    match v with
    | .vBytes bs => isLocalOpt_some _ (EmitPushBytes_isLocal bs)
    | .vCallFlags _ => isLocalOpt_none
    | .vBool _ => isLocalOpt_none
    | .vStr _ => isLocalOpt_none
    | .vBigInt _ => isLocalOpt_none
    | .vBigIntPtr _ => isLocalOpt_none
    | .vU160 _ => isLocalOpt_none
    | .vU256 _ => isLocalOpt_none
    | .vNum _ => isLocalOpt_none
    | .vParam _ _ => isLocalOpt_none
    | .vParams _ => isLocalOpt_none
    | .vMap _ => isLocalOpt_none
    | .vNilT => isLocalOpt_none
    | .vOther => isLocalOpt_none
  | .StringT, some v =>
    match v with
    | .vStr s => isLocalOpt_some _ (EmitPushString_isLocal s)
    | .vCallFlags _ => isLocalOpt_none
    | .vBool _ => isLocalOpt_none
    | .vBytes _ => isLocalOpt_none
    | .vBigInt _ => isLocalOpt_none
    | .vBigIntPtr _ => isLocalOpt_none
    | .vU160 _ => isLocalOpt_none
    | .vU256 _ => isLocalOpt_none
    | .vNum _ => isLocalOpt_none
    | .vParam _ _ => isLocalOpt_none
    | .vParams _ => isLocalOpt_none
    | .vMap _ => isLocalOpt_none
    | .vNilT => isLocalOpt_none
    | .vOther => isLocalOpt_none
  | .ArrayT, some v =>
    match v with
    | .vParams ps =>
      isLocalOpt_map (EmitPushParamsRev ps)
        (fun s1 => emit (EmitPushInteger (.iN (ps.length : Int)) s1) PACK [])
        (EmitPushParamsRev_local ps)
        (isLocal_comp (EmitPushInteger (.iN (ps.length : Int))) (fun s => emit s PACK [])
          (EmitPushInteger_isLocal (.iN (ps.length : Int)))
          (emit_isLocal PACK []))
    | .vCallFlags _ => isLocalOpt_none
    | .vBool _ => isLocalOpt_none
    | .vBytes _ => isLocalOpt_none
    | .vStr _ => isLocalOpt_none
    | .vBigInt _ => isLocalOpt_none
    | .vBigIntPtr _ => isLocalOpt_none
    | .vU160 _ => isLocalOpt_none
    | .vU256 _ => isLocalOpt_none
    | .vNum _ => isLocalOpt_none
    | .vParam _ _ => isLocalOpt_none
    | .vMap _ => isLocalOpt_none
    | .vNilT => isLocalOpt_none
    | .vOther => isLocalOpt_none
  | .MapT, some v =>
    match v with
    | .vMap prs => CreateMap_local prs
    | .vCallFlags _ => isLocalOpt_none
    | .vBool _ => isLocalOpt_none
    | .vBytes _ => isLocalOpt_none
    | .vStr _ => isLocalOpt_none
    | .vBigInt _ => isLocalOpt_none
    | .vBigIntPtr _ => isLocalOpt_none
    | .vU160 _ => isLocalOpt_none
    | .vU256 _ => isLocalOpt_none
    | .vNum _ => isLocalOpt_none
    | .vParam _ _ => isLocalOpt_none
    | .vParams _ => isLocalOpt_none
    | .vNilT => isLocalOpt_none
    | .vOther => isLocalOpt_none
  | .AnyT, some _ => isLocalOpt_some _ (addError_isLocal "invalid param type")
  | .InteropInterfaceT, some _ => isLocalOpt_some _ (addError_isLocal "invalid param type")
  | .VoidT, some _ => isLocalOpt_some _ (addError_isLocal "invalid param type")

theorem EmitPushParamsRev_local : ∀ (ps : List (CPType × Option GoVal)),
    IsLocalOpt (EmitPushParamsRev ps)
  | [] => isLocalOpt_some _ isLocal_id
  | (ty, val) :: rest =>
    isLocalOpt_bind (EmitPushParamsRev rest) (fun s1 => EmitPushParameter ty val s1)
      (EmitPushParamsRev_local rest) (EmitPushParameter_local ty val)

theorem CreateMap_local : ∀ (prs : Option (List (GoVal × GoVal))),
    IsLocalOpt (CreateMap prs)
  | none => isLocalOpt_some _ (emit_isLocal NEWMAP [])
  | some prs =>
    isLocalOpt_comp_left (fun s => emit s NEWMAP []) (CreateMapPairs prs)
      (emit_isLocal NEWMAP []) (CreateMapPairs_local prs)

theorem CreateMapPairs_local : ∀ (prs : List (GoVal × GoVal)),
    IsLocalOpt (CreateMapPairs prs)
  | [] => isLocalOpt_some _ isLocal_id
  | (k, v) :: rest =>
    isLocalOpt_bind
      (fun sb => (EmitPushObject k (emit sb DUP [])).bind (fun s1 => EmitPushObject v s1))
      (fun s2 => CreateMapPairs rest (emit s2 SETITEM []))
      (isLocalOpt_bind (fun sb => EmitPushObject k (emit sb DUP []))
        (fun s1 => EmitPushObject v s1)
        (isLocalOpt_comp_left (fun sb => emit sb DUP []) (EmitPushObject k)
          (emit_isLocal DUP []) (EmitPushObject_local k))
        (EmitPushObject_local v))
      (isLocalOpt_comp_left (fun s2 => emit s2 SETITEM []) (CreateMapPairs rest)
        (emit_isLocal SETITEM []) (CreateMapPairs_local rest))

end

theorem EmitPushObjectsRev_local : ∀ (objs : List GoVal),
    IsLocalOpt (EmitPushObjectsRev objs)
  | [] => isLocalOpt_some _ isLocal_id
  | v :: rest =>
    isLocalOpt_bind (EmitPushObjectsRev rest) (fun s1 => EmitPushObject v s1)
      (EmitPushObjectsRev_local rest) (EmitPushObject_local v)

/-- Witness for C10 at v = 2^63: the encoded integer is -2^63, not 2^63. -/
theorem c10_witness :
    2 ^ 63 ≤ 2 ^ 63
    ∧ EmitPushInteger (.u64 (2 ^ 63)) SBempty
        = EmitPushBigInt (((2 ^ 63 : Nat) : Int) - 2 ^ 64) SBempty :=
  ⟨by norm_num,
    ((c10_uint64_signed_reinterpretation (2 ^ 63) SBempty (by norm_num)).2 (by norm_num)).1⟩

/-! ## C2: parameter type mismatches -/

/-- C2 counterexample: a ContractParameter with declared tag Boolean whose
value is a string makes EmitPushParameter panic (a failed Go type assertion,
modelled as none) instead of recording an encode error and returning
normally. -/
theorem c2_counterexample :
    EmitPushParameter .BooleanT (some (.vStr [97, 98])) SBempty = none := rfl

/-- C2 amended: a parameter whose value's runtime type does not match what
its declared tag asserts makes EmitPushParameter panic (crash); only an
unrecognized tag (Any, InteropInterface, Void) is surfaced as a recorded
encode error with a normal return, an absent value pushes null, and the
Integer tag re-dispatches on the value's runtime type without asserting. -/
theorem c2_amended_mismatch_is_panic :
    (∀ (v : GoVal) (sb : SB), (∀ bs, v ≠ .vBytes bs) →
        EmitPushParameter .SignatureT (some v) sb = none
        ∧ EmitPushParameter .ByteArrayT (some v) sb = none
        ∧ EmitPushParameter .PublicKeyT (some v) sb = none)
    ∧ (∀ (v : GoVal) (sb : SB), (∀ b, v ≠ .vBool b) →
        EmitPushParameter .BooleanT (some v) sb = none)
    ∧ (∀ (v : GoVal) (sb : SB), (∀ bs, v ≠ .vU160 bs) →
        EmitPushParameter .Hash160T (some v) sb = none)
    ∧ (∀ (v : GoVal) (sb : SB), (∀ bs, v ≠ .vU256 bs) →
        EmitPushParameter .Hash256T (some v) sb = none)
    ∧ (∀ (v : GoVal) (sb : SB), (∀ s, v ≠ .vStr s) →
        EmitPushParameter .StringT (some v) sb = none)
    ∧ (∀ (v : GoVal) (sb : SB), (∀ ps, v ≠ .vParams ps) →
        EmitPushParameter .ArrayT (some v) sb = none)
    ∧ (∀ (v : GoVal) (sb : SB), (∀ prs, v ≠ .vMap prs) →
        EmitPushParameter .MapT (some v) sb = none)
    ∧ (∀ (v : GoVal) (sb : SB),
        EmitPushParameter .AnyT (some v) sb = some (addError sb "invalid param type")
        ∧ EmitPushParameter .InteropInterfaceT (some v) sb
            = some (addError sb "invalid param type")
        ∧ EmitPushParameter .VoidT (some v) sb = some (addError sb "invalid param type"))
    ∧ (∀ (s : List Nat) (sb : SB),
        EmitPushParameter .IntegerT (some (.vStr s)) sb = some (EmitPushString s sb))
    ∧ (∀ (ty : CPType) (sb : SB),
        EmitPushParameter ty none sb = some (emit sb PUSHNULL [])) := by
  refine ⟨?_, ?_, ?_, ?_, ?_, ?_, ?_, ?_, ?_, ?_⟩
  · intro v sb h
    refine ⟨?_, ?_, ?_⟩ <;> cases v <;> first | rfl | exact absurd rfl (h _)
  · intro v sb h
    cases v <;> first | rfl | exact absurd rfl (h _)
  · intro v sb h
    cases v <;> first | rfl | exact absurd rfl (h _)
  · intro v sb h
    cases v <;> first | rfl | exact absurd rfl (h _)
  · intro v sb h
    cases v <;> first | rfl | exact absurd rfl (h _)
  · intro v sb h
    cases v <;> first | rfl | exact absurd rfl (h _)
  · intro v sb h
    cases v <;> first | rfl | exact absurd rfl (h _)
  · intro v sb
    exact ⟨rfl, rfl, rfl⟩
  · intro s sb
    rfl
  · intro ty sb
    rfl

/-- Witness for C2 (amended): the Boolean tag panics on a string value, and
the unrecognized Any tag records the error instead. -/
theorem c2_witness :
    EmitPushParameter .BooleanT (some (.vStr [97])) SBempty = none
    ∧ EmitPushParameter .AnyT (some (.vStr [97])) SBempty
        = some (addError SBempty "invalid param type") :=
  ⟨c2_amended_mismatch_is_panic.2.1 (.vStr [97]) SBempty (fun b h => nomatch h),
    (c2_amended_mismatch_is_panic.2.2.2.2.2.2.2.1 (.vStr [97]) SBempty).1⟩

/-! ## Projections of the locality facts -/

theorem buff_app (s d : SB) : (s.app d).buff = s.buff ++ d.buff := rfl

theorem errs_app (s d : SB) : (s.app d).errs = s.errs ++ d.errs := rfl

theorem EmitPushBytes_some_errs (d : List Nat) (sb : SB) :
    (EmitPushBytes (some d) sb).errs = sb.errs := by
  simp only [EmitPushBytes]
  split_ifs <;> rfl

theorem EmitPushBytes_some_buff (d : List Nat) (sb : SB) :
    (EmitPushBytes (some d) sb).buff
      = sb.buff ++ (EmitPushBytes (some d) SBempty).buff := by
  rw [EmitPushBytes_isLocal (some d) sb, buff_app]

theorem EmitPushBigInt_buff (n : Int) (sb : SB) :
    (EmitPushBigInt n sb).buff = sb.buff ++ (EmitPushBigInt n SBempty).buff := by
  rw [EmitPushBigInt_isLocal n sb, buff_app]

/-! ## Sessions: runOps and finalization (C3) -/

theorem applyOp_isLocal (o : EncodeOp) : IsLocal (applyOp o) := by
  cases o with
  | emitOne op arg => exact emit_isLocal op arg
  | pushBigInt n => exact EmitPushBigInt_isLocal n
  | pushInteger num => exact EmitPushInteger_isLocal num
  | pushBool b => exact EmitPushBool_isLocal b
  | pushBytes data => exact EmitPushBytes_isLocal data
  | pushString s => exact EmitPushString_isLocal s
  | pushSerializable bs => exact EmitPushSerializable_isLocal bs
  | jump op offset => exact EmitJump_isLocal op offset
  | callRel offset => exact EmitCall_isLocal offset
  | sysCall api => exact EmitSysCall_isLocal api

theorem runOps_eq_app_delta (ops : List EncodeOp) (s : SB) :
    runOps ops s = s.app (sessionDelta ops) := by
  induction ops generalizing s with
  | nil =>
    show s = s.app SBempty
    rw [SB.app_empty]
  | cons o rest ih =>
    show runOps rest (applyOp o s) = s.app (sessionDelta (o :: rest))
    rw [ih (applyOp o s), applyOp_isLocal o s, SB.app_assoc]
    rfl

theorem sessionDelta_append (ops ops2 : List EncodeOp) :
    sessionDelta (ops ++ ops2) = (sessionDelta ops).app (sessionDelta ops2) := by
  induction ops with
  | nil =>
    show sessionDelta ops2 = SBempty.app (sessionDelta ops2)
    rw [SB.empty_app]
  | cons o rest ih =>
    show (applyOp o SBempty).app (sessionDelta (rest ++ ops2)) = _
    rw [ih, ← SB.app_assoc]
    rfl

/-- C3: finalization returns the full accumulated buffer unconditionally and,
when errors were recorded, exactly one combined error joining every recorded
message with newlines in record order; every encode operation only appends a
state-independent delta, so a session splits into independent per-call
deltas and calls after a failing call proceed unaffected; two failing calls
followed by a successful one finalize to the successful call's bytes
together with both messages newline-joined in call order. -/
theorem c3_finalize_returns_buffer_and_joined_errors
    (ops ops2 : List EncodeOp) (s : SB) :
    (runOps ops s = s.app (sessionDelta ops))
    ∧ (sessionDelta (ops ++ ops2) = (sessionDelta ops).app (sessionDelta ops2))
    ∧ ((ToArray (runOps ops s)).1 = (runOps ops s).buff)
    ∧ ((runOps ops s).errs = [] → (ToArray (runOps ops s)).2 = none)
    ∧ ((runOps ops s).errs ≠ [] →
        (ToArray (runOps ops s)).2
          = some (String.intercalate "\n" (runOps ops s).errs))
    ∧ (ToArray (runOps [.pushBytes none, .pushInteger .nonInteger, .pushBool true] SBempty)
        = ([PUSH1], some "data is empty\nparam is not of integer type")) := by
  refine ⟨runOps_eq_app_delta ops s, sessionDelta_append ops ops2, ?_, ?_, ?_, by decide⟩
  · unfold ToArray
    split_ifs <;> rfl
  · intro h
    unfold ToArray
    rw [if_pos h]
  · intro h
    unfold ToArray
    rw [if_neg h]

/-- Witness for C3: a session with one failing call finalizes to the
combined (single-message) error. -/
theorem c3_witness :
    (runOps [.pushBytes none] SBempty).errs ≠ []
    ∧ (ToArray (runOps [.pushBytes none] SBempty)).2
        = some (String.intercalate "\n" (runOps [.pushBytes none] SBempty).errs) :=
  ⟨by decide,
    (c3_finalize_returns_buffer_and_joined_errors [.pushBytes none] [] SBempty).2.2.2.2.1
      (by decide)⟩

/-! ## CreateArray (C8) -/

theorem EmitPushObjectsRev_eq_seq (l : List GoVal) (sb : SB) :
    EmitPushObjectsRev l sb = seqPushObjects l.reverse sb := by
  induction l generalizing sb with
  | nil => rfl
  | cons v rest ih =>
    rw [List.reverse_cons]
    show (EmitPushObjectsRev rest sb).bind (fun s1 => EmitPushObject v s1)
        = seqPushObjects (rest.reverse ++ [v]) sb
    rw [ih sb]
    generalize rest.reverse = xs
    induction xs generalizing sb with
    | nil =>
      show EmitPushObject v sb = (EmitPushObject v sb).bind (seqPushObjects [])
      cases EmitPushObject v sb <;> rfl
    | cons x xs ih2 =>
      show (seqPushObjects (x :: xs) sb).bind (fun s1 => EmitPushObject v s1)
          = (EmitPushObject x sb).bind (seqPushObjects (xs ++ [v]))
      show ((EmitPushObject x sb).bind (seqPushObjects xs)).bind (fun s1 => EmitPushObject v s1)
          = (EmitPushObject x sb).bind (seqPushObjects (xs ++ [v]))
      cases EmitPushObject x sb with
      | none => rfl
      | some s1 => exact ih2 s1

theorem seqPushObjects_mapM (l : List GoVal) (sb : SB) (ds : List SB)
    (h : l.mapM (fun v => EmitPushObject v SBempty) = some ds) :
    seqPushObjects l sb = some (sb.app (SB.concat ds)) := by
  induction l generalizing sb ds with
  | nil =>
    simp only [List.mapM_nil, pure, Option.some.injEq] at h
    subst h
    show some sb = some (sb.app SBempty)
    rw [SB.app_empty]
  | cons v rest ih =>
    rw [List.mapM_cons] at h
    cases hv : EmitPushObject v SBempty with
    | none => rw [hv] at h; simp at h
    | some d =>
      rw [hv] at h
      cases hr : rest.mapM (fun v => EmitPushObject v SBempty) with
      | none => rw [hr] at h; simp at h
      | some ds2 =>
        rw [hr] at h
        simp at h
        subst h
        show (EmitPushObject v sb).bind (seqPushObjects rest) = _
        rw [EmitPushObject_local v sb, hv]
        show seqPushObjects rest (sb.app d) = _
        rw [ih (sb.app d) ds2 hr, SB.app_assoc]
        rfl

/-- C8: CreateArray on an empty or absent list emits exactly the single
NEWARRAY0 opcode; on a non-empty list whose element pushes produce the
deltas ds (listed last element first, per the reverse loop), it appends
exactly those deltas in that order, then the push of the element count, then
the PACK opcode, and nothing else. -/
theorem c8_createArray_reverse_count_pack (l : List GoVal) (sb : SB) (ds : List SB)
    (hds : l.reverse.mapM (fun v => EmitPushObject v SBempty) = some ds) :
    (CreateArray none sb = some (emit sb NEWARRAY0 []))
    ∧ (l = [] → CreateArray (some l) sb = some (emit sb NEWARRAY0 []))
    ∧ (l ≠ [] →
        CreateArray (some l) sb
          = some ((sb.app (SB.concat ds)).app
              (emit (EmitPushInteger (.iN (l.length : Int)) SBempty) PACK []))) := by
  refine ⟨rfl, ?_, ?_⟩
  · intro h
    subst h
    rfl
  · intro h
    have hemp : l.isEmpty = false := by
      cases l with
      | nil => exact absurd rfl h
      | cons a as => rfl
    show CreateArray (some l) sb = _
    simp only [CreateArray, hemp, Bool.false_eq_true, if_false]
    rw [EmitPushObjectsRev_eq_seq, seqPushObjects_mapM l.reverse sb ds hds]
    show some (emit (EmitPushInteger (.iN (l.length : Int)) (sb.app (SB.concat ds))) PACK [])
        = _
    have hloc := isLocal_comp (EmitPushInteger (.iN (l.length : Int)))
      (fun s => emit s PACK []) (EmitPushInteger_isLocal (.iN (l.length : Int)))
      (emit_isLocal PACK []) (sb.app (SB.concat ds))
    dsimp only at hloc
    rw [hloc]

/-- Witness for C8 on [true, false, flags 3]: the pushes appear in reverse
order, then the count 3, then PACK. -/
theorem c8_witness :
    ([GoVal.vBool true, GoVal.vBool false, GoVal.vCallFlags 3].reverse.mapM
        (fun v => EmitPushObject v SBempty)
      = some [⟨[0x13], []⟩, ⟨[0x10], []⟩, ⟨[0x11], []⟩])
    ∧ ([GoVal.vBool true, GoVal.vBool false, GoVal.vCallFlags 3] : List GoVal) ≠ []
    ∧ CreateArray (some [GoVal.vBool true, GoVal.vBool false, GoVal.vCallFlags 3]) SBempty
        = some ((SBempty.app (SB.concat [⟨[0x13], []⟩, ⟨[0x10], []⟩, ⟨[0x11], []⟩])).app
            (emit (EmitPushInteger
              (.iN (([GoVal.vBool true, GoVal.vBool false, GoVal.vCallFlags 3].length : Nat) : Int))
              SBempty) PACK [])) :=
  ⟨by decide, by simp,
    (c8_createArray_reverse_count_pack
        [GoVal.vBool true, GoVal.vBool false, GoVal.vCallFlags 3] SBempty
        [⟨[0x13], []⟩, ⟨[0x10], []⟩, ⟨[0x11], []⟩] (by decide)).2.2 (by simp)⟩

/-! ## The no-argument dynamic call (C9) -/

theorem SB.extEq (a b : SB) (h1 : a.buff = b.buff) (h2 : a.errs = b.errs) : a = b := by
  cases a
  cases b
  cases h1
  cases h2
  rfl

theorem emit_buff (sb : SB) (op : Nat) (arg : List Nat) :
    (emit sb op arg).buff = sb.buff ++ op :: arg := rfl

theorem emit_errs (sb : SB) (op : Nat) (arg : List Nat) :
    (emit sb op arg).errs = sb.errs := rfl

theorem EmitPushBigInt_allFlags_errs (sb : SB) :
    (EmitPushBigInt ((AllCallFlags : Nat) : Int) sb).errs = sb.errs := rfl

/-- The exact delta appended by a no-argument dynamic call: the NEWARRAY0
opcode, the push of the all-permissions call flags, the push of the
operation string, the push of the serialized target identity, and the
system call carrying the 4-byte interop hash. -/
theorem EmitDynamicCall_delta (T op : List Nat) (sb : SB) :
    EmitDynamicCall T op sb
      = some (sb.app ⟨NEWARRAY0 :: ((EmitPushBigInt ((AllCallFlags : Nat) : Int) SBempty).buff
          ++ ((EmitPushBytes (some op) SBempty).buff
            ++ ((EmitPushBytes (some T) SBempty).buff
              ++ SYSCALL :: UInt32ToBytes CallInteropHash))), []⟩) := by
  show some (EmitSysCall CallInteropHash
      (EmitPushSerializable T (EmitPushString op (EmitPushBigInt ((AllCallFlags : Nat) : Int)
        (emit sb NEWARRAY0 []))))) = _
  congr 1
  refine SB.extEq _ _ ?_ ?_
  · show (emit (EmitPushBytes (some T) (EmitPushBytes (some op)
        (EmitPushBigInt ((AllCallFlags : Nat) : Int) (emit sb NEWARRAY0 []))))
        SYSCALL (UInt32ToBytes CallInteropHash)).buff = _
    rw [emit_buff, EmitPushBytes_some_buff T, EmitPushBytes_some_buff op,
      EmitPushBigInt_buff, emit_buff, buff_app]
    simp [List.append_assoc]
  · show (emit (EmitPushBytes (some T) (EmitPushBytes (some op)
        (EmitPushBigInt ((AllCallFlags : Nat) : Int) (emit sb NEWARRAY0 []))))
        SYSCALL (UInt32ToBytes CallInteropHash)).errs = _
    rw [emit_errs, EmitPushBytes_some_errs T, EmitPushBytes_some_errs op,
      EmitPushBigInt_allFlags_errs, emit_errs, errs_app]
    simp

/-- C9: a dynamic call with target identity T, operation s and no arguments
emits exactly, in order: NEWARRAY0, the push of the all-permissions call
flags, the push of s as a UTF-8 byte string, the push of T's canonical
serialization, and the SYSCALL instruction carrying the fixed 4-byte
contract-invocation interop hash — and nothing else; MakeScript with an
absent or empty argument list produces exactly those bytes with no error,
byte-for-byte checkable on a concrete T and the operation "transfer". -/
theorem c9_dynamic_call_no_args_shape (T op : List Nat) (sb : SB) :
    (EmitDynamicCall T op sb
        = some (sb.app ⟨NEWARRAY0 :: ((EmitPushBigInt ((AllCallFlags : Nat) : Int) SBempty).buff
            ++ ((EmitPushBytes (some op) SBempty).buff
              ++ ((EmitPushBytes (some T) SBempty).buff
                ++ SYSCALL :: UInt32ToBytes CallInteropHash))), []⟩))
    ∧ (MakeScript T op none
        = some (NEWARRAY0 :: ((EmitPushBigInt ((AllCallFlags : Nat) : Int) SBempty).buff
            ++ ((EmitPushBytes (some op) SBempty).buff
              ++ ((EmitPushBytes (some T) SBempty).buff
                ++ SYSCALL :: UInt32ToBytes CallInteropHash))), none))
    ∧ (MakeScript T op (some []) = MakeScript T op none)
    ∧ (MakeScript [0, 1, 2, 3, 4, 5, 6, 7, 8, 9, 10, 11, 12, 13, 14, 15, 16, 17, 18, 19]
          [116, 114, 97, 110, 115, 102, 101, 114] none
        = some ([0xC2, 0x1F,
            0x0C, 8, 116, 114, 97, 110, 115, 102, 101, 114,
            0x0C, 20, 0, 1, 2, 3, 4, 5, 6, 7, 8, 9, 10, 11, 12, 13, 14, 15, 16, 17, 18, 19,
            0x41, 0x52, 0x5B, 0x7D, 0x62], none)) := by
  refine ⟨EmitDynamicCall_delta T op sb, ?_, rfl, by decide⟩
  show (EmitDynamicCall T op SBempty).map ToArray = _
  rw [EmitDynamicCall_delta T op SBempty]
  show some (ToArray (SBempty.app _)) = _
  rw [SB.empty_app]
  rfl

end NeoSB
